import Mathlib

/-!
Shallow embedding of the write-behind Redis cache engine
(`nautilus_core/infrastructure/src/redis/cache.rs`) and of the Tardis machine
message parser (`nautilus_core/adapters/src/tardis/machine/parse.rs`) of the
nautilus_trader repository.

Modelling conventions:
- Rust `&str` / `String` values are modelled as `List Char` (`Str`), so that
  `str::split_once` and prefix/suffix predicates are plain structural
  recursion.
- `Bytes` buffers are modelled as `List Nat`.
- Fallible functions return `Except RedisErr`; functions whose Rust body can
  hit an unchecked slice index additionally distinguish a `panicked` outcome
  (`PResult`), since a Rust out-of-bounds index aborts the surrounding task
  rather than returning an error.
- The mutation of the `redis::Pipeline` is modelled by returning the list of
  primitive store commands the dispatcher appends to the pipeline.
-/

abbrev Str : Type := List Char

abbrev Bytes : Type := List Nat

/-- Key delimiter, the constant `REDIS_DELIMITER` (a single ASCII colon). -/
def REDIS_DELIMITER : Char := ':'

-- Collection keys (constants of cache.rs)
def INDEX : Str := "index".toList
def GENERAL : Str := "general".toList
def CURRENCIES : Str := "currencies".toList
def INSTRUMENTS : Str := "instruments".toList
def SYNTHETICS : Str := "synthetics".toList
def ACCOUNTS : Str := "accounts".toList
def ORDERS : Str := "orders".toList
def POSITIONS : Str := "positions".toList
def ACTORS : Str := "actors".toList
def STRATEGIES : Str := "strategies".toList
def SNAPSHOTS : Str := "snapshots".toList
def HEALTH : Str := "health".toList

-- Index keys (constants of cache.rs)
def INDEX_ORDER_IDS : Str := "index:order_ids".toList
def INDEX_ORDER_POSITION : Str := "index:order_position".toList
def INDEX_ORDER_CLIENT : Str := "index:order_client".toList
def INDEX_ORDERS : Str := "index:orders".toList
def INDEX_ORDERS_OPEN : Str := "index:orders_open".toList
def INDEX_ORDERS_CLOSED : Str := "index:orders_closed".toList
def INDEX_ORDERS_EMULATED : Str := "index:orders_emulated".toList
def INDEX_ORDERS_INFLIGHT : Str := "index:orders_inflight".toList
def INDEX_POSITIONS : Str := "index:positions".toList
def INDEX_POSITIONS_OPEN : Str := "index:positions_open".toList
def INDEX_POSITIONS_CLOSED : Str := "index:positions_closed".toList

/-- Error kinds surfaced by the engine (section 7 of the specification). -/
inductive RedisErr : Type
  | invalidKey
  | unsupportedOp
  | emptyPayload
  | channelSend
  deriving Repr, DecidableEq

deriving instance DecidableEq for Except

/-- Embedding of `str::split_once`: splits at the first occurrence of `sep`,
returning the parts before and after it, or `none` when `sep` is absent. -/
def split_once (sep : Char) : Str → Option (Str × Str)
  | [] => none
  | c :: cs =>
    if c = sep then some ([], cs)
    else (split_once sep cs).map (fun p => (c :: p.1, p.2))

/-- Embedding of `get_collection_key`: the part of `key` before the first
delimiter, or an invalid-key error when the delimiter is absent. -/
def get_collection_key (key : Str) : Except RedisErr Str :=
  match split_once REDIS_DELIMITER key with
  | some (collection, _) => Except.ok collection
  | none => Except.error RedisErr.invalidKey

/-- Embedding of `get_index_key`: the part of `key` after the first
delimiter, or an invalid-key error when the delimiter is absent. -/
def get_index_key (key : Str) : Except RedisErr Str :=
  match split_once REDIS_DELIMITER key with
  | some (_, indexKey) => Except.ok indexKey
  | none => Except.error RedisErr.invalidKey

/-- A primitive store command appended to the `redis::Pipeline` by the
dispatcher (`pipe.set`, `pipe.rpush`, `pipe.rpush_exists`, `pipe.sadd`,
`pipe.srem`, `pipe.hset`, `pipe.del`). -/
inductive RedisPrim : Type
  | set (key : Str) (value : Bytes)
  | rpush (key : Str) (value : Bytes)
  | rpushx (key : Str) (value : Bytes)
  | sadd (key : Str) (value : Bytes)
  | srem (key : Str) (member : Bytes)
  | hset (key : Str) (field : Bytes) (value : Bytes)
  | del (key : Str)
  deriving Repr, DecidableEq

/-- Result of running a fragment of worker code: a normal value, an error
that the caller logs, or a Rust panic (unchecked slice index, `expect`,
`panic!` macro) that aborts the worker task. -/
inductive PResult (α : Type) : Type
  | ok (a : α)
  | err (e : RedisErr)
  | panicked
  deriving Repr, DecidableEq

/-- Embedding of `insert_index`: second-level dispatch on the index key for
`Insert` commands. The `value[0]` / `value[1]` slice indexing of the source
is modelled with `panicked` when the index is out of bounds. -/
def insert_index (key : Str) (value : List Bytes) : PResult (List RedisPrim) :=
  match get_index_key key with
  | Except.error e => PResult.err e
  | Except.ok indexKey =>
    if indexKey = INDEX_ORDER_IDS then
      match value with
      | v0 :: _ => PResult.ok [RedisPrim.sadd key v0]
      | [] => PResult.panicked
    else if indexKey = INDEX_ORDER_POSITION then
      match value with
      | f :: v :: _ => PResult.ok [RedisPrim.hset key f v]
      | _ => PResult.panicked
    else if indexKey = INDEX_ORDER_CLIENT then
      match value with
      | f :: v :: _ => PResult.ok [RedisPrim.hset key f v]
      | _ => PResult.panicked
    else if indexKey = INDEX_ORDERS then
      match value with
      | v0 :: _ => PResult.ok [RedisPrim.sadd key v0]
      | [] => PResult.panicked
    else if indexKey = INDEX_ORDERS_OPEN then
      match value with
      | v0 :: _ => PResult.ok [RedisPrim.sadd key v0]
      | [] => PResult.panicked
    else if indexKey = INDEX_ORDERS_CLOSED then
      match value with
      | v0 :: _ => PResult.ok [RedisPrim.sadd key v0]
      | [] => PResult.panicked
    else if indexKey = INDEX_ORDERS_EMULATED then
      match value with
      | v0 :: _ => PResult.ok [RedisPrim.sadd key v0]
      | [] => PResult.panicked
    else if indexKey = INDEX_ORDERS_INFLIGHT then
      match value with
      | v0 :: _ => PResult.ok [RedisPrim.sadd key v0]
      | [] => PResult.panicked
    else if indexKey = INDEX_POSITIONS then
      match value with
      | v0 :: _ => PResult.ok [RedisPrim.sadd key v0]
      | [] => PResult.panicked
    else if indexKey = INDEX_POSITIONS_OPEN then
      match value with
      | v0 :: _ => PResult.ok [RedisPrim.sadd key v0]
      | [] => PResult.panicked
    else if indexKey = INDEX_POSITIONS_CLOSED then
      match value with
      | v0 :: _ => PResult.ok [RedisPrim.sadd key v0]
      | [] => PResult.panicked
    else PResult.err RedisErr.unsupportedOp

/-- Embedding of `fn insert` (the Insert arm of the collection dispatcher).
The leading emptiness test is `check_slice_not_empty`; after it, `value[0]`
is in bounds, so the scalar and list arms use the matched head directly. -/
def insert_op (collection key : Str) (value : List Bytes) : PResult (List RedisPrim) :=
  match value with
  | [] => PResult.err RedisErr.emptyPayload
  | v0 :: rest =>
    if collection = INDEX then insert_index key (v0 :: rest)
    else if collection = GENERAL then PResult.ok [RedisPrim.set key v0]
    else if collection = CURRENCIES then PResult.ok [RedisPrim.set key v0]
    else if collection = INSTRUMENTS then PResult.ok [RedisPrim.set key v0]
    else if collection = SYNTHETICS then PResult.ok [RedisPrim.set key v0]
    else if collection = ACCOUNTS then PResult.ok [RedisPrim.rpush key v0]
    else if collection = ORDERS then PResult.ok [RedisPrim.rpush key v0]
    else if collection = POSITIONS then PResult.ok [RedisPrim.rpush key v0]
    else if collection = ACTORS then PResult.ok [RedisPrim.set key v0]
    else if collection = STRATEGIES then PResult.ok [RedisPrim.set key v0]
    else if collection = SNAPSHOTS then PResult.ok [RedisPrim.rpush key v0]
    else if collection = HEALTH then PResult.ok [RedisPrim.set key v0]
    else PResult.err RedisErr.unsupportedOp

/-- Embedding of `fn update` (the Update arm of the collection dispatcher). -/
def update_op (collection key : Str) (value : List Bytes) : PResult (List RedisPrim) :=
  match value with
  | [] => PResult.err RedisErr.emptyPayload
  | v0 :: _ =>
    if collection = ACCOUNTS then PResult.ok [RedisPrim.rpushx key v0]
    else if collection = ORDERS then PResult.ok [RedisPrim.rpushx key v0]
    else if collection = POSITIONS then PResult.ok [RedisPrim.rpushx key v0]
    else PResult.err RedisErr.unsupportedOp

/-- Embedding of `remove_index`: second-level dispatch on the index key for
`Delete` commands. The source first requires the payload to be present
(`ok_or_else`), then resolves the index key; `value[0]` on an empty vector
is a panic. -/
def remove_index (key : Str) (value : Option (List Bytes)) : PResult (List RedisPrim) :=
  match value with
  | none => PResult.err RedisErr.emptyPayload
  | some v =>
    match get_index_key key with
    | Except.error e => PResult.err e
    | Except.ok indexKey =>
      if indexKey = INDEX_ORDERS_OPEN then
        match v with
        | m :: _ => PResult.ok [RedisPrim.srem key m]
        | [] => PResult.panicked
      else if indexKey = INDEX_ORDERS_CLOSED then
        match v with
        | m :: _ => PResult.ok [RedisPrim.srem key m]
        | [] => PResult.panicked
      else if indexKey = INDEX_ORDERS_EMULATED then
        match v with
        | m :: _ => PResult.ok [RedisPrim.srem key m]
        | [] => PResult.panicked
      else if indexKey = INDEX_ORDERS_INFLIGHT then
        match v with
        | m :: _ => PResult.ok [RedisPrim.srem key m]
        | [] => PResult.panicked
      else if indexKey = INDEX_POSITIONS_OPEN then
        match v with
        | m :: _ => PResult.ok [RedisPrim.srem key m]
        | [] => PResult.panicked
      else if indexKey = INDEX_POSITIONS_CLOSED then
        match v with
        | m :: _ => PResult.ok [RedisPrim.srem key m]
        | [] => PResult.panicked
      else PResult.err RedisErr.unsupportedOp

/-- Embedding of `fn delete` (the Delete arm of the collection dispatcher).
The payload may be absent for non-index deletes. -/
def delete_op (collection key : Str) (value : Option (List Bytes)) : PResult (List RedisPrim) :=
  if collection = INDEX then remove_index key value
  else if collection = ACTORS then PResult.ok [RedisPrim.del key]
  else if collection = STRATEGIES then PResult.ok [RedisPrim.del key]
  else PResult.err RedisErr.unsupportedOp

/-- Database operation tags (`DatabaseOperation` in the source). -/
inductive DatabaseOperation : Type
  | insert
  | update
  | delete
  | close
  deriving Repr, DecidableEq

/-- A buffered database command (`DatabaseCommand` in the source). -/
structure DatabaseCommand : Type where
  opType : DatabaseOperation
  key : Option Str
  payload : Option (List Bytes)
  deriving Repr, DecidableEq

/-- Processing of one buffered command inside `drain_buffer`: resolve the
collection from the raw key (an error is logged and the command skipped),
build the trader-prefixed key and dispatch on the operation. `expect` on a
null key and `panic!` on a drained `Close` are Rust panics. -/
def drain_command (traderKey : Str) (msg : DatabaseCommand) : PResult (List RedisPrim) :=
  match msg.key with
  | none => PResult.panicked
  | some rawKey =>
    match get_collection_key rawKey with
    | Except.error e => PResult.err e
    | Except.ok collection =>
      let key := traderKey ++ REDIS_DELIMITER :: rawKey
      match msg.opType with
      | DatabaseOperation.insert =>
        match msg.payload with
        | some payload => insert_op collection key payload
        | none => PResult.err RedisErr.emptyPayload
      | DatabaseOperation.update =>
        match msg.payload with
        | some payload => update_op collection key payload
        | none => PResult.err RedisErr.emptyPayload
      | DatabaseOperation.delete => delete_op collection key msg.payload
      | DatabaseOperation.close => PResult.panicked

/-- Embedding of `drain_buffer`: every buffered command is dispatched in
order into one pipeline; a command that produces an error is logged and
skipped, while a panic aborts the whole worker task. The result is the
content of the pipeline submitted at the end of the flush. -/
def drain_buffer (traderKey : Str) : List DatabaseCommand → PResult (List RedisPrim)
  | [] => PResult.ok []
  | msg :: rest =>
    match drain_command traderKey msg with
    | PResult.panicked => PResult.panicked
    | PResult.err _ =>
      drain_buffer traderKey rest
    | PResult.ok prims =>
      match drain_buffer traderKey rest with
      | PResult.panicked => PResult.panicked
      | PResult.err e => PResult.err e
      | PResult.ok prims2 => PResult.ok (prims ++ prims2)

/-- Abstract state of the Redis-compatible store, one table per value shape,
as association lists keyed by the full key. A missing key behaves as the
empty value of its shape, matching the store's semantics for `GET`,
`LRANGE`, `SMEMBERS` and `HGETALL` on absent keys. -/
structure RedisStore : Type where
  strings : List (Str × Bytes)
  lists : List (Str × List Bytes)
  sets : List (Str × List Bytes)
  hashes : List (Str × List (Str × Str))
  deriving Repr, DecidableEq

/-- Value returned by `GET key`, empty when the key is absent. -/
def RedisStore.getStr (st : RedisStore) (key : Str) : Bytes :=
  (List.lookup key st.strings).getD []

/-- Value returned by `LRANGE key 0 -1`, empty when the key is absent. -/
def RedisStore.getList (st : RedisStore) (key : Str) : List Bytes :=
  (List.lookup key st.lists).getD []

/-- Value returned by `SMEMBERS key`, empty when the key is absent. -/
def RedisStore.getSet (st : RedisStore) (key : Str) : List Bytes :=
  (List.lookup key st.sets).getD []

/-- Value returned by `HGETALL key`, empty when the key is absent. -/
def RedisStore.getHash (st : RedisStore) (key : Str) : List (Str × Str) :=
  (List.lookup key st.hashes).getD []

/-- A primitive read command issued on the read connection. -/
inductive ReadPrim : Type
  | get (key : Str)
  | lrange (key : Str) (start stop : Int)
  | smembers (key : Str)
  | hgetall (key : Str)
  deriving Repr, DecidableEq

/-- JSON escaping of one character inside a string literal (model of the
serde_json string encoder for the characters that can need escaping here). -/
def jsonEscapeChar (c : Char) : Str :=
  if c = '\"' then ['\\', '\"']
  else if c = '\\' then ['\\', '\\']
  else [c]

/-- A JSON string literal for `s`. -/
def jsonQuote (s : Str) : Str :=
  '\"' :: (s.flatMap jsonEscapeChar) ++ ['\"']

/-- Comma-separated `field: value` JSON pairs. -/
def jsonPairs : List (Str × Str) → Str
  | [] => []
  | [(k, v)] => jsonQuote k ++ ':' :: jsonQuote v
  | (k, v) :: p :: rest => jsonQuote k ++ ':' :: jsonQuote v ++ ',' :: jsonPairs (p :: rest)

/-- Model of `serde_json::to_string` on a string-to-string map, as a JSON
object over the association-list representation of the map. -/
def jsonEncode (m : List (Str × Str)) : Str :=
  Char.ofNat 123 :: jsonPairs m ++ [Char.ofNat 125]

/-- UTF-8 bytes of a (ASCII-ranged) model string. -/
def strBytes (s : Str) : Bytes := s.map Char.toNat

/-- Embedding of `read_string`: `GET`, then an empty result is returned as
an empty vector and a non-empty one as a single-element vector. -/
def read_string (st : RedisStore) (key : Str) : ReadPrim × List Bytes :=
  (ReadPrim.get key, if st.getStr key = [] then [] else [st.getStr key])

/-- Embedding of `read_set`: `SMEMBERS`, members returned as a vector. -/
def read_set (st : RedisStore) (key : Str) : ReadPrim × List Bytes :=
  (ReadPrim.smembers key, st.getSet key)

/-- Embedding of `read_hset`: `HGETALL`, then the field-to-value map is
serialized to JSON and returned as a single-element vector. -/
def read_hset (st : RedisStore) (key : Str) : ReadPrim × List Bytes :=
  (ReadPrim.hgetall key, [strBytes (jsonEncode (st.getHash key))])

/-- Embedding of `read_list`: `LRANGE key 0 -1`, the list in stored order. -/
def read_list (st : RedisStore) (key : Str) : ReadPrim × List Bytes :=
  (ReadPrim.lrange key 0 (-1), st.getList key)

/-- Embedding of `read_index`: dispatch on the index key resolved from the
trader-prefixed key; unknown index keys are an unsupported operation. -/
def read_index (st : RedisStore) (key : Str) : Except RedisErr (ReadPrim × List Bytes) :=
  match get_index_key key with
  | Except.error e => Except.error e
  | Except.ok indexKey =>
    if indexKey = INDEX_ORDER_IDS then Except.ok (read_set st key)
    else if indexKey = INDEX_ORDER_POSITION then Except.ok (read_hset st key)
    else if indexKey = INDEX_ORDER_CLIENT then Except.ok (read_hset st key)
    else if indexKey = INDEX_ORDERS then Except.ok (read_set st key)
    else if indexKey = INDEX_ORDERS_OPEN then Except.ok (read_set st key)
    else if indexKey = INDEX_ORDERS_CLOSED then Except.ok (read_set st key)
    else if indexKey = INDEX_ORDERS_EMULATED then Except.ok (read_set st key)
    else if indexKey = INDEX_ORDERS_INFLIGHT then Except.ok (read_set st key)
    else if indexKey = INDEX_POSITIONS then Except.ok (read_set st key)
    else if indexKey = INDEX_POSITIONS_OPEN then Except.ok (read_set st key)
    else if indexKey = INDEX_POSITIONS_CLOSED then Except.ok (read_set st key)
    else Except.error RedisErr.unsupportedOp

/-- Embedding of `RedisCacheDatabase::read`: resolve the collection from the
raw key, build the trader-prefixed key and dispatch to the primitive read. -/
def read_op (st : RedisStore) (traderKey rawKey : Str) : Except RedisErr (ReadPrim × List Bytes) :=
  match get_collection_key rawKey with
  | Except.error e => Except.error e
  | Except.ok collection =>
    let key := traderKey ++ REDIS_DELIMITER :: rawKey
    if collection = INDEX then read_index st key
    else if collection = GENERAL then Except.ok (read_string st key)
    else if collection = CURRENCIES then Except.ok (read_string st key)
    else if collection = INSTRUMENTS then Except.ok (read_string st key)
    else if collection = SYNTHETICS then Except.ok (read_string st key)
    else if collection = ACCOUNTS then Except.ok (read_list st key)
    else if collection = ORDERS then Except.ok (read_list st key)
    else if collection = POSITIONS then Except.ok (read_list st key)
    else if collection = ACTORS then Except.ok (read_string st key)
    else if collection = STRATEGIES then Except.ok (read_string st key)
    else Except.error RedisErr.unsupportedOp

/-- Producer-side state of one engine instance: whether the write worker's
channel receiver is still alive (it is dropped exactly when
`process_commands` returns) and the commands currently queued. -/
structure EngineState : Type where
  receiverAlive : Bool
  queue : List DatabaseCommand
  deriving Repr, DecidableEq

/-- Embedding of `tx.send` on the unbounded channel: enqueue when the
receiver is alive, otherwise fail; the producer methods surface the failure
as a channel-send error. -/
def sendCommand (s : EngineState) (cmd : DatabaseCommand) : Except RedisErr EngineState :=
  if s.receiverAlive then Except.ok { s with queue := s.queue ++ [cmd] }
  else Except.error RedisErr.channelSend

/-- Embedding of `RedisCacheDatabase::insert`: build an Insert command and
send it on the channel. -/
def insertCmd (s : EngineState) (key : Str) (payload : Option (List Bytes)) : Except RedisErr EngineState :=
  sendCommand s { opType := DatabaseOperation.insert, key := some key, payload := payload }

/-- Embedding of `RedisCacheDatabase::update`: build an Update command and
send it on the channel. -/
def updateCmd (s : EngineState) (key : Str) (payload : Option (List Bytes)) : Except RedisErr EngineState :=
  sendCommand s { opType := DatabaseOperation.update, key := some key, payload := payload }

/-- Embedding of `RedisCacheDatabase::delete`: build a Delete command and
send it on the channel. -/
def deleteCmd (s : EngineState) (key : Str) (payload : Option (List Bytes)) : Except RedisErr EngineState :=
  sendCommand s { opType := DatabaseOperation.delete, key := some key, payload := payload }

/-- Embedding of `RedisCacheDatabase::close`: send the `Close` sentinel
(errors logged and ignored) and block on the worker's join handle. The join
returns only once `process_commands` has returned; at that point the task
has consumed and dropped the channel receiver, so the joined engine has a
dead receiver and an empty queue. -/
def closeEngine (_s : EngineState) : EngineState :=
  { receiverAlive := false, queue := [] }

/-- The store after `FLUSHDB`: every key of every shape is removed. -/
def emptyStore : RedisStore := { strings := [], lists := [], sets := [], hashes := [] }

/-- Embedding of `RedisCacheDatabase::flushdb` as the suspended computation
(Rust future) it evaluates to: when awaited, it issues `FLUSHDB`, clearing
the store. -/
def flushdbFuture (_st : RedisStore) : RedisStore × Unit :=
  (emptyStore, ())

/-- Embedding of `RedisCacheDatabaseAdapter::flush`: the body calls
`self.database.flushdb()` in a non-async context, which only creates the
future; the future is dropped without being awaited, and `Ok(())` is
returned. The store state is therefore passed through untouched. -/
def adapterFlush (st : RedisStore) : Except RedisErr Unit × RedisStore :=
  let _future := flushdbFuture
  (Except.ok (), st)

/-- Cache configuration options used by the key codec. -/
structure CacheConfig : Type where
  use_trader_prefix : Bool
  use_instance_id : Bool
  deriving Repr, DecidableEq

/-- Embedding of `get_trader_key`: optional `trader-` prefix, the trader
identifier, and an optional `:`-separated instance identifier suffix. -/
def get_trader_key (traderId : Str) (instanceId : Str) (config : CacheConfig) : Str :=
  (if config.use_trader_prefix then "trader-".toList else [])
    ++ traderId
    ++ (if config.use_instance_id then REDIS_DELIMITER :: instanceId else [])

/-- Splitting of a model string at every occurrence of `sep` (model of
`str::split`); the result is always non-empty. -/
def splitAll (sep : Char) : Str → List Str
  | [] => [[]]
  | c :: cs =>
    if c = sep then [] :: splitAll sep cs
    else
      match splitAll sep cs with
      | [] => [[c]]
      | g :: gs => (c :: g) :: gs

/-- Embedding of `key.rsplit(':').next()`: the first segment from the end,
that is the last `:`-separated segment of the key. -/
def rsplitNext (sep : Char) (s : Str) : Option Str :=
  (splitAll sep s).reverse.head?

/-- Identifier extraction step shared by the bulk loaders
(`load_currencies`, `load_instruments`, `load_synthetics`, `load_accounts`,
`load_orders`, `load_positions`): the identifier candidate is
`key.rsplit(':').next()`; a `None` would be logged as an invalid key format
and the key dropped. -/
def extract_identifier (key : Str) : Option Str :=
  match rsplitNext ':' key with
  | some code => some code
  | none => none

/-- One price level of a Tardis book message (`BookLevel` in the source).
The `f64` price and amount are modelled as exact rationals; the claims
settled here do not depend on floating-point rounding. -/
structure BookLevel : Type where
  price : Rat
  amount : Rat
  deriving Repr, DecidableEq

/-- Order side of a book delta. -/
inductive OrderSide : Type
  | buy
  | sell
  deriving Repr, DecidableEq

/-- Book delta action. -/
inductive BookAction : Type
  | add
  | update
  | delete
  deriving Repr, DecidableEq

/-- Modelled from the spec: `crate::tardis::parse::parse_book_action` is not
among the provided sources; per the specification the action is add, update
or delete, chosen by `is_snapshot` and whether `amount == 0`. -/
def parse_book_action (isSnapshot : Bool) (amount : Rat) : BookAction :=
  if amount = 0 then BookAction.delete
  else if isSnapshot then BookAction.add
  else BookAction.update

/-- Modelled from the spec: `RecordFlag::F_SNAPSHOT` of `nautilus_model` is
not among the provided sources; it is the per-delta snapshot bit flag
(value 32 in the Databento flag convention the repository uses). -/
def F_SNAPSHOT : Nat := 32

/-- Modelled from the spec: `RecordFlag::F_LAST` of `nautilus_model` is not
among the provided sources; it is the last-record bit flag (value 128 in
the Databento flag convention the repository uses). -/
def F_LAST : Nat := 128

/-- An order-book delta as built by the parser (`OrderBookDelta`). -/
structure OrderBookDelta : Type where
  instrumentId : Str
  action : BookAction
  side : OrderSide
  price : Rat
  size : Rat
  orderId : Nat
  flags : Nat
  sequence : Nat
  tsEvent : Nat
  tsInit : Nat
  deriving Repr, DecidableEq

/-- Conversion of a signed nanosecond timestamp to `u64`
(`timestamp_nanos_opt().unwrap() as u64`): reinterpretation modulo 2^64. -/
def asU64 (n : Int) : Nat := (n % (2 ^ 64)).toNat

/-- Embedding of `parse_book_level`: one delta for one level, flags carrying
the snapshot bit exactly when the message is a snapshot. -/
def parse_book_level (instrumentId : Str) (_pricePrecision _sizePrecision : Nat)
    (side : OrderSide) (level : BookLevel) (isSnapshot : Bool)
    (tsEvent tsInit : Nat) : OrderBookDelta :=
  { instrumentId := instrumentId
    action := parse_book_action isSnapshot level.amount
    side := side
    price := level.price
    size := level.amount
    orderId := 0
    flags := if isSnapshot then F_SNAPSHOT else 0
    sequence := 0
    tsEvent := tsEvent
    tsInit := tsInit }

/-- The `deltas.last_mut()` step of `parse_book_msg`: add the last-record
flag to the final delta, when one exists. -/
def setLastFlag : List OrderBookDelta → List OrderBookDelta
  | [] => []
  | [d] => [{ d with flags := d.flags + F_LAST }]
  | d :: d2 :: rest => d :: setLastFlag (d2 :: rest)

/-- Embedding of `parse_book_msg`: timestamps converted to nanoseconds, one
delta per bid level then one per ask level, and the last-record flag added
to the final delta of the batch. -/
def parse_book_msg (bids asks : List BookLevel) (isSnapshot : Bool)
    (pricePrecision sizePrecision : Nat) (instrumentId : Str)
    (timestamp localTimestamp : Int) : List OrderBookDelta :=
  let tsEvent := asU64 timestamp
  let tsInit := asU64 localTimestamp
  setLastFlag
    (bids.map (fun level =>
        parse_book_level instrumentId pricePrecision sizePrecision
          OrderSide.buy level isSnapshot tsEvent tsInit)
      ++ asks.map (fun level =>
        parse_book_level instrumentId pricePrecision sizePrecision
          OrderSide.sell level isSnapshot tsEvent tsInit))

/-- Test of the last-record bit on a delta's flags. -/
def carriesLast (d : OrderBookDelta) : Bool := Nat.testBit d.flags 7

/-- Test of the snapshot bit on a delta's flags. -/
def carriesSnapshot (d : OrderBookDelta) : Bool := Nat.testBit d.flags 5

/-- Projection of a delta to the fields claim-relevant for level order and
timestamps; it ignores the flags. -/
def deltaKey (d : OrderBookDelta) : OrderSide × Rat × Rat × Nat × Nat :=
  (d.side, d.price, d.size, d.tsEvent, d.tsInit)

theorem split_once_of_mem (sep : Char) :
    ∀ k : Str, sep ∈ k →
      split_once sep k =
        some (k.takeWhile (fun c => c != sep), (k.dropWhile (fun c => c != sep)).tail) := by
  intro k
  induction k with
  | nil => intro h; cases h
  | cons c cs ih =>
    intro h
    by_cases hc : c = sep
    · subst hc
      simp [split_once, List.takeWhile_cons, List.dropWhile_cons]
    · have hmem : sep ∈ cs := by
        rcases List.mem_cons.mp h with h1 | h2
        · exact absurd h1.symm hc
        · exact h2
      have hne : (c != sep) = true := bne_iff_ne.mpr hc
      simp [split_once, hc, ih hmem, List.takeWhile_cons, List.dropWhile_cons, hne]

theorem split_once_of_not_mem (sep : Char) :
    ∀ k : Str, sep ∉ k → split_once sep k = none := by
  intro k
  induction k with
  | nil => intro _; rfl
  | cons c cs ih =>
    intro h
    have hc : ¬(c = sep) := fun he => h (he ▸ List.mem_cons_self c cs)
    have hcs : sep ∉ cs := fun hm => h (List.mem_cons_of_mem c hm)
    simp [split_once, hc, ih hcs]

theorem isPrefixOf_append_sep (sep : Char) :
    ∀ pat tid rest : Str, sep ∉ pat →
      List.isPrefixOf pat (tid ++ sep :: rest) = List.isPrefixOf pat tid := by
  intro pat
  induction pat with
  | nil => intro tid rest _; simp [List.isPrefixOf]
  | cons p ps ih =>
    intro tid rest h
    have hp : ¬(p = sep) := fun he => h (he ▸ List.mem_cons_self p ps)
    have hps : sep ∉ ps := fun hm => h (List.mem_cons_of_mem p hm)
    cases tid with
    | nil =>
      have : (p == sep) = false := beq_eq_false_iff_ne.mpr hp
      simp [List.isPrefixOf, this]
    | cons t ts =>
      simp [List.isPrefixOf, ih ts rest hps]

theorem splitAll_ne_nil (sep : Char) : ∀ s : Str, splitAll sep s ≠ [] := by
  intro s
  induction s with
  | nil => simp [splitAll]
  | cons c cs ih =>
    by_cases hc : c = sep
    · simp [splitAll, hc]
    · rcases hg : splitAll sep cs with _ | ⟨g, gs⟩
      · exact absurd hg ih
      · simp [splitAll, hc, hg]

theorem splitAll_of_not_mem (sep : Char) :
    ∀ s : Str, sep ∉ s → splitAll sep s = [s] := by
  intro s
  induction s with
  | nil => intro _; rfl
  | cons c cs ih =>
    intro h
    have hc : ¬(c = sep) := fun he => h (he ▸ List.mem_cons_self c cs)
    have hcs : sep ∉ cs := fun hm => h (List.mem_cons_of_mem c hm)
    simp [splitAll, hc, ih hcs]

theorem setLastFlag_concat :
    ∀ (init : List OrderBookDelta) (a : OrderBookDelta),
      setLastFlag (init ++ [a]) = init ++ [{ a with flags := a.flags + F_LAST }] := by
  intro init a
  induction init with
  | nil => rfl
  | cons d ds ih =>
    cases ds with
    | nil => rfl
    | cons d2 ds2 =>
      have h2 : setLastFlag ((d :: d2 :: ds2) ++ [a]) = d :: setLastFlag ((d2 :: ds2) ++ [a]) := rfl
      rw [h2, ih]
      rfl

theorem setLastFlag_map_deltaKey :
    ∀ ds : List OrderBookDelta, (setLastFlag ds).map deltaKey = ds.map deltaKey := by
  intro ds
  induction ds with
  | nil => rfl
  | cons d rest ih =>
    cases rest with
    | nil => rfl
    | cons d2 ds2 => simp [setLastFlag]; simpa using ih

/-- Claim C4: once `close()` has returned, the write-worker task has been
joined, hence the channel receiver is dropped, and every subsequent call to
`insert`, `update` or `delete` fails with a channel-send error instead of
enqueuing a command. -/
theorem close_then_send_fails (s : EngineState) (key : Str) (payload : Option (List Bytes)) :
    insertCmd (closeEngine s) key payload = Except.error RedisErr.channelSend ∧
    updateCmd (closeEngine s) key payload = Except.error RedisErr.channelSend ∧
    deleteCmd (closeEngine s) key payload = Except.error RedisErr.channelSend :=
  ⟨rfl, rfl, rfl⟩

/-- Claim C9: `RedisCacheDatabaseAdapter::flush` creates the `flushdb`
future but never awaits it, so the store state is left unchanged and
`Ok(())` is returned; by contrast, awaiting the created future would have
cleared the (non-empty) store. -/
theorem adapter_flush_never_flushes (st : RedisStore) (h : st ≠ emptyStore) :
    adapterFlush st = (Except.ok (), st) ∧ (flushdbFuture st).1 ≠ st :=
  ⟨rfl, fun he => h he.symm⟩

theorem adapter_flush_never_flushes_witness :
    adapterFlush { strings := [(['k'], [1])], lists := [], sets := [], hashes := [] }
        = (Except.ok (),
           { strings := [(['k'], [1])], lists := [], sets := [], hashes := [] }) ∧
    (flushdbFuture { strings := [(['k'], [1])], lists := [], sets := [], hashes := [] }).1
        ≠ { strings := [(['k'], [1])], lists := [], sets := [], hashes := [] } :=
  adapter_flush_never_flushes
    { strings := [(['k'], [1])], lists := [], sets := [], hashes := [] } (by decide)

/-- Claim C10: in every bulk loader, `key.rsplit(':').next()` yields `Some`
for every key string — for a key with no delimiter it yields the entire
key — so the invalid-key-format branch is unreachable and every scanned key
yields an identifier candidate. -/
theorem loader_key_extraction_total (key : Str) :
    (extract_identifier key).isSome = true ∧
    (':' ∉ key → extract_identifier key = some key) := by
  constructor
  · rcases hrev : (splitAll ':' key).reverse with _ | ⟨a, t⟩
    · exact absurd (List.reverse_eq_nil_iff.mp hrev) (splitAll_ne_nil ':' key)
    · simp [extract_identifier, rsplitNext, hrev]
  · intro hmem
    simp [extract_identifier, rsplitNext, splitAll_of_not_mem ':' key hmem]

theorem loader_key_extraction_total_witness :
    (extract_identifier ("currencies".toList)).isSome = true ∧
    extract_identifier ("currencies".toList) = some ("currencies".toList) :=
  ⟨(loader_key_extraction_total ("currencies".toList)).1,
   (loader_key_extraction_total ("currencies".toList)).2 (by decide)⟩

/-- Claim C6: for a key containing the delimiter, `get_collection_key`
returns the part before the first delimiter and `get_index_key` the part
after it; for a key without the delimiter, both fail with an invalid-key
error. -/
theorem codec_split_first_delimiter (key : Str) :
    (REDIS_DELIMITER ∈ key →
      get_collection_key key = Except.ok (key.takeWhile (fun c => c != REDIS_DELIMITER)) ∧
      get_index_key key = Except.ok ((key.dropWhile (fun c => c != REDIS_DELIMITER)).tail)) ∧
    (REDIS_DELIMITER ∉ key →
      get_collection_key key = Except.error RedisErr.invalidKey ∧
      get_index_key key = Except.error RedisErr.invalidKey) := by
  constructor
  · intro h
    have hs := split_once_of_mem REDIS_DELIMITER key h
    exact ⟨by simp [get_collection_key, hs], by simp [get_index_key, hs]⟩
  · intro h
    have hs := split_once_of_not_mem REDIS_DELIMITER key h
    exact ⟨by simp [get_collection_key, hs], by simp [get_index_key, hs]⟩

theorem codec_split_first_delimiter_witness :
    get_collection_key ("collection:123".toList) = Except.ok ("collection".toList) ∧
    get_index_key ("index:123".toList) = Except.ok ("123".toList) ∧
    get_collection_key ("no_delimiter".toList) = Except.error RedisErr.invalidKey := by
  refine ⟨?_, ?_, ?_⟩
  · exact ((codec_split_first_delimiter ("collection:123".toList)).1 (by decide)).1.trans
      (congrArg Except.ok (by decide))
  · exact ((codec_split_first_delimiter ("index:123".toList)).1 (by decide)).2.trans
      (congrArg Except.ok (by decide))
  · exact ((codec_split_first_delimiter ("no_delimiter".toList)).2 (by decide)).1

/-- Claim C5 counterexample: with `use_trader_prefix = false` and a trader
identifier that itself starts with `trader-`, the built key starts with
`trader-` although the option is off, so the claimed biconditional fails. -/
theorem trader_key_prefix_iff_counterexample :
    List.isPrefixOf ("trader-".toList)
      (get_trader_key ("trader-x".toList) ("u".toList) ⟨false, false⟩) = true ∧
    CacheConfig.use_trader_prefix ⟨false, false⟩ = false := by
  decide

theorem isSuffixOf_colon_false (l instanceId : Str) (h : REDIS_DELIMITER ∉ l) :
    List.isSuffixOf (REDIS_DELIMITER :: instanceId) l = false := by
  cases hb : List.isSuffixOf (REDIS_DELIMITER :: instanceId) l with
  | false => rfl
  | true =>
    exact absurd ((List.isSuffixOf_iff_suffix.mp hb).subset (List.mem_cons_self _ _)) h

/-- Claim C5 as amended: the key starts with `trader-` whenever
`use_trader_prefix` is on, and with the option off it starts with `trader-`
exactly when the trader identifier itself does; the key ends with the
delimiter followed by the instance identifier whenever `use_instance_id` is
on, and with the option off it does not end that way provided the trader
identifier contains no delimiter. -/
theorem trader_key_prefix_suffix (traderId instanceId : Str) (config : CacheConfig) :
    ( config.use_trader_prefix = true →
      List.isPrefixOf ("trader-".toList) (get_trader_key traderId instanceId config) = true) ∧
    ( config.use_trader_prefix = false →
      List.isPrefixOf ("trader-".toList) (get_trader_key traderId instanceId config) =
        List.isPrefixOf ("trader-".toList) traderId) ∧
    ( config.use_instance_id = true →
      List.isSuffixOf (REDIS_DELIMITER :: instanceId)
        (get_trader_key traderId instanceId config) = true) ∧
    ( config.use_instance_id = false → REDIS_DELIMITER ∉ traderId →
      List.isSuffixOf (REDIS_DELIMITER :: instanceId)
        (get_trader_key traderId instanceId config) = false) := by
  obtain ⟨p, i⟩ := config
  have hpat : REDIS_DELIMITER ∉ "trader-".toList := by decide
  cases p <;> cases i
  · refine ⟨?_, ?_, ?_, ?_⟩
    · intro hp; exact absurd hp (by decide)
    · intro _
      rw [show get_trader_key traderId instanceId ⟨false, false⟩ = traderId from by
        show ([] ++ traderId) ++ [] = traderId
        rw [List.nil_append, List.append_nil]]
    · intro hi; exact absurd hi (by decide)
    · intro _ hmem
      rw [show get_trader_key traderId instanceId ⟨false, false⟩ = traderId from by
        show ([] ++ traderId) ++ [] = traderId
        rw [List.nil_append, List.append_nil]]
      exact isSuffixOf_colon_false traderId instanceId hmem
  · refine ⟨?_, ?_, ?_, ?_⟩
    · intro hp; exact absurd hp (by decide)
    · intro _
      rw [show get_trader_key traderId instanceId ⟨false, true⟩ =
          traderId ++ REDIS_DELIMITER :: instanceId from by
        show ([] ++ traderId) ++ REDIS_DELIMITER :: instanceId = _
        rw [List.nil_append]]
      exact isPrefixOf_append_sep REDIS_DELIMITER ("trader-".toList) traderId instanceId hpat
    · intro _
      rw [show get_trader_key traderId instanceId ⟨false, true⟩ =
          traderId ++ REDIS_DELIMITER :: instanceId from by
        show ([] ++ traderId) ++ REDIS_DELIMITER :: instanceId = _
        rw [List.nil_append]]
      exact List.isSuffixOf_iff_suffix.mpr (List.suffix_append _ _)
    · intro hi; exact absurd hi (by decide)
  · refine ⟨?_, ?_, ?_, ?_⟩
    · intro _
      rw [show get_trader_key traderId instanceId ⟨true, false⟩ =
          "trader-".toList ++ traderId from by
        show ("trader-".toList ++ traderId) ++ [] = _
        rw [List.append_nil]]
      exact List.isPrefixOf_iff_prefix.mpr (List.prefix_append _ _)
    · intro hp; exact absurd hp (by decide)
    · intro hi; exact absurd hi (by decide)
    · intro _ hmem
      rw [show get_trader_key traderId instanceId ⟨true, false⟩ =
          "trader-".toList ++ traderId from by
        show ("trader-".toList ++ traderId) ++ [] = _
        rw [List.append_nil]]
      refine isSuffixOf_colon_false _ instanceId ?_
      intro hm
      rcases List.mem_append.mp hm with h1 | h2
      · exact hpat h1
      · exact hmem h2
  · refine ⟨?_, ?_, ?_, ?_⟩
    · intro _
      rw [show get_trader_key traderId instanceId ⟨true, true⟩ =
          ("trader-".toList ++ traderId) ++ REDIS_DELIMITER :: instanceId from rfl,
        List.append_assoc]
      exact List.isPrefixOf_iff_prefix.mpr (List.prefix_append _ _)
    · intro hp; exact absurd hp (by decide)
    · intro _
      rw [show get_trader_key traderId instanceId ⟨true, true⟩ =
          ("trader-".toList ++ traderId) ++ REDIS_DELIMITER :: instanceId from rfl]
      exact List.isSuffixOf_iff_suffix.mpr (List.suffix_append _ _)
    · intro hi; exact absurd hi (by decide)

theorem trader_key_prefix_suffix_witness :
    List.isPrefixOf ("trader-".toList)
      (get_trader_key ("tester-123".toList) ("abc".toList) ⟨true, true⟩) = true ∧
    List.isSuffixOf (REDIS_DELIMITER :: "abc".toList)
      (get_trader_key ("tester-123".toList) ("abc".toList) ⟨true, true⟩) = true :=
  ⟨(trader_key_prefix_suffix ("tester-123".toList) ("abc".toList) ⟨true, true⟩).1 rfl,
   (trader_key_prefix_suffix ("tester-123".toList) ("abc".toList) ⟨true, true⟩).2.2.1 rfl⟩

/-- Claim C1: evaluation of the flush at the inputs named by the claim. A
buffered Insert into `index:order_position` whose payload has fewer than
two elements, and a buffered Delete on a set index whose payload is an
empty vector, make the worker panic (unchecked slice index) instead of
being logged and skipped; by contrast an unknown collection is skipped and
the rest of the batch still reaches the pipeline. -/
theorem drain_buffer_illformed_eval :
    drain_buffer ("trader-tester-123".toList)
      [{ opType := DatabaseOperation.insert,
         key := some ("index:order_position".toList),
         payload := some [[120]] }] = PResult.panicked ∧
    drain_buffer ("trader-tester-123".toList)
      [{ opType := DatabaseOperation.delete,
         key := some ("index:orders_open".toList),
         payload := some [] }] = PResult.panicked ∧
    drain_buffer ("trader-tester-123".toList)
      [{ opType := DatabaseOperation.insert,
         key := some ("unknown:x".toList),
         payload := some [[97]] },
       { opType := DatabaseOperation.insert,
         key := some ("general:y".toList),
         payload := some [[98]] }]
      = PResult.ok [RedisPrim.set ("trader-tester-123:general:y".toList) [98]] := by
  refine ⟨?_, ?_, ?_⟩ <;> decide

/-- Claim C3 counterexample: a snapshot book message whose bid and ask
level lists are both empty emits no deltas at all, so no delta carries the
last-record flag, refuting that exactly one (the last) always does. -/
theorem book_msg_empty_counterexample :
    parse_book_msg [] [] true 0 0 [] 0 0 = [] ∧
    ((parse_book_msg [] [] true 0 0 [] 0 0).countP carriesLast = 1 → False) := by
  constructor
  · rfl
  · intro h
    rw [show parse_book_msg [] [] true 0 0 [] 0 0 = [] from rfl] at h
    simp at h

/-- Claim C3 as amended: for every book message with at least one level,
each emitted delta carries the snapshot flag exactly when the message is a
snapshot, and exactly one delta — the last — carries the last-record flag.
(A message whose bid and ask level lists are both empty emits no deltas at
all, so it carries no last-record flag.) -/
theorem book_msg_flags (bids asks : List BookLevel) (snap : Bool)
    (pp sp : Nat) (iid : Str) (ts lts : Int)
    (h : bids ++ asks ≠ []) :
    (∀ d ∈ parse_book_msg bids asks snap pp sp iid ts lts, carriesSnapshot d = snap) ∧
    (parse_book_msg bids asks snap pp sp iid ts lts).countP carriesLast = 1 ∧
    ∃ lst, (parse_book_msg bids asks snap pp sp iid ts lts).getLast? = some lst ∧
      carriesLast lst = true := by
  have hpb : parse_book_msg bids asks snap pp sp iid ts lts =
      setLastFlag
        (bids.map (fun level =>
            parse_book_level iid pp sp OrderSide.buy level snap (asU64 ts) (asU64 lts))
          ++ asks.map (fun level =>
            parse_book_level iid pp sp OrderSide.sell level snap (asU64 ts) (asU64 lts))) := rfl
  set ds0 := bids.map (fun level =>
      parse_book_level iid pp sp OrderSide.buy level snap (asU64 ts) (asU64 lts))
    ++ asks.map (fun level =>
      parse_book_level iid pp sp OrderSide.sell level snap (asU64 ts) (asU64 lts)) with hds0
  have hflags : ∀ d ∈ ds0, d.flags = (if snap then F_SNAPSHOT else 0) := by
    intro d hd
    rcases List.mem_append.mp hd with h1 | h1 <;>
      · obtain ⟨l, _, rfl⟩ := List.mem_map.mp h1
        rfl
  have hne : ds0 ≠ [] := by
    intro h0
    rw [hds0] at h0
    rcases List.append_eq_nil.mp h0 with ⟨hb, ha⟩
    exact h (by rw [List.map_eq_nil_iff.mp hb, List.map_eq_nil_iff.mp ha]; rfl)
  rcases List.eq_nil_or_concat' ds0 with h0 | ⟨init, a, hsplit⟩
  · exact absurd h0 hne
  have hmema : a ∈ ds0 := by
    rw [hsplit]; exact List.mem_append.mpr (Or.inr (List.mem_singleton.mpr rfl))
  have hbase_a : a.flags = (if snap then F_SNAPSHOT else 0) := hflags a hmema
  have hinit : ∀ d ∈ init, d.flags = (if snap then F_SNAPSHOT else 0) := by
    intro d hd
    exact hflags d (by rw [hsplit]; exact List.mem_append.mpr (Or.inl hd))
  have hs1 : Nat.testBit (if snap then F_SNAPSHOT else 0) 5 = snap := by
    cases snap <;> decide
  have hs2 : Nat.testBit ((if snap then F_SNAPSHOT else 0) + F_LAST) 5 = snap := by
    cases snap <;> decide
  have hl1 : Nat.testBit (if snap then F_SNAPSHOT else 0) 7 = false := by
    cases snap <;> decide
  have hl2 : Nat.testBit ((if snap then F_SNAPSHOT else 0) + F_LAST) 7 = true := by
    cases snap <;> decide
  rw [hpb, hsplit, setLastFlag_concat]
  refine ⟨?_, ?_, ?_⟩
  · intro d hd
    rcases List.mem_append.mp hd with h1 | h1
    · show Nat.testBit d.flags 5 = snap
      rw [hinit d h1]
      exact hs1
    · rw [List.mem_singleton.mp h1]
      show Nat.testBit (a.flags + F_LAST) 5 = snap
      rw [hbase_a]
      exact hs2
  · rw [List.countP_append]
    have hz : List.countP carriesLast init = 0 := by
      refine List.countP_eq_zero.mpr ?_
      intro d hd hc
      have : Nat.testBit d.flags 7 = true := hc
      rw [hinit d hd, hl1] at this
      exact Bool.false_ne_true this
    rw [hz]
    have ho : List.countP carriesLast [{ a with flags := a.flags + F_LAST }] = 1 := by
      have hc : carriesLast { a with flags := a.flags + F_LAST } = true := by
        show Nat.testBit (a.flags + F_LAST) 7 = true
        rw [hbase_a]
        exact hl2
      simp [List.countP_cons, hc]
    rw [ho]
  · refine ⟨{ a with flags := a.flags + F_LAST }, List.getLast?_concat init, ?_⟩
    show Nat.testBit (a.flags + F_LAST) 7 = true
    rw [hbase_a]
    exact hl2

theorem book_msg_flags_witness :
    (∀ d ∈ parse_book_msg [⟨1, 2⟩] [] true 0 0 [] 0 0, carriesSnapshot d = true) ∧
    (parse_book_msg [⟨1, 2⟩] [] true 0 0 [] 0 0).countP carriesLast = 1 ∧
    ∃ lst, (parse_book_msg [⟨1, 2⟩] [] true 0 0 [] 0 0).getLast? = some lst ∧
      carriesLast lst = true :=
  book_msg_flags [⟨1, 2⟩] [] true 0 0 [] 0 0 (by simp)

/-- Claim C8: the parser emits exactly one delta per level, all bid deltas
before all ask deltas, each group in input order, and every delta carries
the same event timestamp (from `timestamp` in nanoseconds) and the same
init timestamp (from `local_timestamp` in nanoseconds). -/
theorem book_msg_levels (bids asks : List BookLevel) (snap : Bool)
    (pp sp : Nat) (iid : Str) (ts lts : Int) :
    (parse_book_msg bids asks snap pp sp iid ts lts).map deltaKey =
      bids.map (fun l => (OrderSide.buy, l.price, l.amount, asU64 ts, asU64 lts)) ++
      asks.map (fun l => (OrderSide.sell, l.price, l.amount, asU64 ts, asU64 lts)) := by
  have hpb : parse_book_msg bids asks snap pp sp iid ts lts =
      setLastFlag
        (bids.map (fun level =>
            parse_book_level iid pp sp OrderSide.buy level snap (asU64 ts) (asU64 lts))
          ++ asks.map (fun level =>
            parse_book_level iid pp sp OrderSide.sell level snap (asU64 ts) (asU64 lts))) := rfl
  rw [hpb, setLastFlag_map_deltaKey, List.map_append, List.map_map, List.map_map]
  rfl

/-- Claim C2: the collection dispatcher builds exactly the primitive of the
documented table — SET for scalar-collection inserts, RPUSH for list
inserts, SADD for set-index inserts, HSET for hash-index inserts, RPUSHX
for list updates, DEL for actor and strategy deletes, SREM for transition
set-index deletes — and every operation and collection (or index key)
combination outside the table is an unsupported operation. -/
theorem dispatch_table_total (c tail k : Str) (v0 v1 : Bytes) (vs : List Bytes)
    (p : Option (List Bytes)) (hik : get_index_key k = Except.ok tail) :
    (c ∈ [GENERAL, CURRENCIES, INSTRUMENTS, SYNTHETICS, ACTORS, STRATEGIES, HEALTH] →
      insert_op c k (v0 :: vs) = PResult.ok [RedisPrim.set k v0]) ∧
    (c ∈ [ACCOUNTS, ORDERS, POSITIONS, SNAPSHOTS] →
      insert_op c k (v0 :: vs) = PResult.ok [RedisPrim.rpush k v0]) ∧
    (tail ∈ [INDEX_ORDER_IDS, INDEX_ORDERS, INDEX_ORDERS_OPEN, INDEX_ORDERS_CLOSED,
        INDEX_ORDERS_EMULATED, INDEX_ORDERS_INFLIGHT, INDEX_POSITIONS,
        INDEX_POSITIONS_OPEN, INDEX_POSITIONS_CLOSED] →
      insert_op INDEX k (v0 :: vs) = PResult.ok [RedisPrim.sadd k v0]) ∧
    (tail ∈ [INDEX_ORDER_POSITION, INDEX_ORDER_CLIENT] →
      insert_op INDEX k (v0 :: v1 :: vs) = PResult.ok [RedisPrim.hset k v0 v1]) ∧
    (c ∈ [ACCOUNTS, ORDERS, POSITIONS] →
      update_op c k (v0 :: vs) = PResult.ok [RedisPrim.rpushx k v0]) ∧
    (c ∈ [ACTORS, STRATEGIES] → delete_op c k p = PResult.ok [RedisPrim.del k]) ∧
    (tail ∈ [INDEX_ORDERS_OPEN, INDEX_ORDERS_CLOSED, INDEX_ORDERS_EMULATED,
        INDEX_ORDERS_INFLIGHT, INDEX_POSITIONS_OPEN, INDEX_POSITIONS_CLOSED] →
      delete_op INDEX k (some (v0 :: vs)) = PResult.ok [RedisPrim.srem k v0]) ∧
    (c ∉ [INDEX, GENERAL, CURRENCIES, INSTRUMENTS, SYNTHETICS, ACCOUNTS, ORDERS,
        POSITIONS, ACTORS, STRATEGIES, SNAPSHOTS, HEALTH] →
      insert_op c k (v0 :: vs) = PResult.err RedisErr.unsupportedOp) ∧
    (tail ∉ [INDEX_ORDER_IDS, INDEX_ORDER_POSITION, INDEX_ORDER_CLIENT, INDEX_ORDERS,
        INDEX_ORDERS_OPEN, INDEX_ORDERS_CLOSED, INDEX_ORDERS_EMULATED,
        INDEX_ORDERS_INFLIGHT, INDEX_POSITIONS, INDEX_POSITIONS_OPEN,
        INDEX_POSITIONS_CLOSED] →
      insert_op INDEX k (v0 :: vs) = PResult.err RedisErr.unsupportedOp) ∧
    (c ∉ [ACCOUNTS, ORDERS, POSITIONS] →
      update_op c k (v0 :: vs) = PResult.err RedisErr.unsupportedOp) ∧
    (c ∉ [INDEX, ACTORS, STRATEGIES] →
      delete_op c k p = PResult.err RedisErr.unsupportedOp) ∧
    (tail ∉ [INDEX_ORDERS_OPEN, INDEX_ORDERS_CLOSED, INDEX_ORDERS_EMULATED,
        INDEX_ORDERS_INFLIGHT, INDEX_POSITIONS_OPEN, INDEX_POSITIONS_CLOSED] →
      delete_op INDEX k (some (v0 :: vs)) = PResult.err RedisErr.unsupportedOp) := by
  refine ⟨?_, ?_, ?_, ?_, ?_, ?_, ?_, ?_, ?_, ?_, ?_, ?_⟩
  · intro hc
    fin_cases hc <;> exact rfl
  · intro hc
    fin_cases hc <;> exact rfl
  · intro ht
    fin_cases ht <;> (simp only [insert_op, insert_index, hik]; exact rfl)
  · intro ht
    fin_cases ht <;> (simp only [insert_op, insert_index, hik]; exact rfl)
  · intro hc
    fin_cases hc <;> exact rfl
  · intro hc
    fin_cases hc <;> exact rfl
  · intro ht
    fin_cases ht <;> (simp only [delete_op, remove_index, hik]; exact rfl)
  · intro hc
    simp only [List.mem_cons, List.not_mem_nil, or_false, not_or] at hc
    obtain ⟨n1, n2, n3, n4, n5, n6, n7, n8, n9, n10, n11, n12⟩ := hc
    simp only [insert_op, n1, n2, n3, n4, n5, n6, n7, n8, n9, n10, n11, n12, if_false]
  · intro ht
    simp only [List.mem_cons, List.not_mem_nil, or_false, not_or] at ht
    obtain ⟨n1, n2, n3, n4, n5, n6, n7, n8, n9, n10, n11⟩ := ht
    simp only [insert_op, insert_index, hik]
    simp only [n1, n2, n3, n4, n5, n6, n7, n8, n9, n10, n11, if_false]
    exact rfl
  · intro hc
    simp only [List.mem_cons, List.not_mem_nil, or_false, not_or] at hc
    obtain ⟨n1, n2, n3⟩ := hc
    simp only [update_op, n1, n2, n3, if_false]
  · intro hc
    simp only [List.mem_cons, List.not_mem_nil, or_false, not_or] at hc
    obtain ⟨n1, n2, n3⟩ := hc
    simp only [delete_op, n1, n2, n3, if_false]
  · intro ht
    simp only [List.mem_cons, List.not_mem_nil, or_false, not_or] at ht
    obtain ⟨n1, n2, n3, n4, n5, n6⟩ := ht
    simp only [delete_op, remove_index, hik]
    simp only [n1, n2, n3, n4, n5, n6, if_false]
    exact rfl

theorem dispatch_table_total_witness :
    insert_op GENERAL ("general:foo".toList) [[42]]
      = PResult.ok [RedisPrim.set ("general:foo".toList) [42]] :=
  (dispatch_table_total GENERAL ("foo".toList) ("general:foo".toList) [42] [] [] none
      (by decide)).1 (by decide)

/-- Claim C7: `read` dispatches scalar collections to GET (empty result
gives an empty vector, otherwise a single-element vector), list collections
to LRANGE 0 -1 in stored order, set index keys to SMEMBERS, hash index keys
to HGETALL with the map JSON-encoded into a single-element vector, and
every other collection or index key is an unsupported operation. -/
theorem read_dispatch_table (st : RedisStore) (tk raw c tail : Str)
    (hc : get_collection_key raw = Except.ok c)
    (hik : get_index_key (tk ++ REDIS_DELIMITER :: raw) = Except.ok tail) :
    (c ∈ [GENERAL, CURRENCIES, INSTRUMENTS, SYNTHETICS, ACTORS, STRATEGIES] →
      RedisStore.getStr st (tk ++ REDIS_DELIMITER :: raw) = [] →
      read_op st tk raw =
        Except.ok (ReadPrim.get (tk ++ REDIS_DELIMITER :: raw), [])) ∧
    (c ∈ [GENERAL, CURRENCIES, INSTRUMENTS, SYNTHETICS, ACTORS, STRATEGIES] →
      RedisStore.getStr st (tk ++ REDIS_DELIMITER :: raw) ≠ [] →
      read_op st tk raw =
        Except.ok (ReadPrim.get (tk ++ REDIS_DELIMITER :: raw),
          [RedisStore.getStr st (tk ++ REDIS_DELIMITER :: raw)])) ∧
    (c ∈ [ACCOUNTS, ORDERS, POSITIONS] →
      read_op st tk raw =
        Except.ok (ReadPrim.lrange (tk ++ REDIS_DELIMITER :: raw) 0 (-1),
          RedisStore.getList st (tk ++ REDIS_DELIMITER :: raw))) ∧
    (c = INDEX →
      tail ∈ [INDEX_ORDER_IDS, INDEX_ORDERS, INDEX_ORDERS_OPEN, INDEX_ORDERS_CLOSED,
        INDEX_ORDERS_EMULATED, INDEX_ORDERS_INFLIGHT, INDEX_POSITIONS,
        INDEX_POSITIONS_OPEN, INDEX_POSITIONS_CLOSED] →
      read_op st tk raw =
        Except.ok (ReadPrim.smembers (tk ++ REDIS_DELIMITER :: raw),
          RedisStore.getSet st (tk ++ REDIS_DELIMITER :: raw))) ∧
    (c = INDEX → tail ∈ [INDEX_ORDER_POSITION, INDEX_ORDER_CLIENT] →
      read_op st tk raw =
        Except.ok (ReadPrim.hgetall (tk ++ REDIS_DELIMITER :: raw),
          [strBytes (jsonEncode (RedisStore.getHash st (tk ++ REDIS_DELIMITER :: raw)))])) ∧
    (c ∉ [INDEX, GENERAL, CURRENCIES, INSTRUMENTS, SYNTHETICS, ACCOUNTS, ORDERS,
        POSITIONS, ACTORS, STRATEGIES] →
      read_op st tk raw = Except.error RedisErr.unsupportedOp) ∧
    (c = INDEX →
      tail ∉ [INDEX_ORDER_IDS, INDEX_ORDER_POSITION, INDEX_ORDER_CLIENT, INDEX_ORDERS,
        INDEX_ORDERS_OPEN, INDEX_ORDERS_CLOSED, INDEX_ORDERS_EMULATED,
        INDEX_ORDERS_INFLIGHT, INDEX_POSITIONS, INDEX_POSITIONS_OPEN,
        INDEX_POSITIONS_CLOSED] →
      read_op st tk raw = Except.error RedisErr.unsupportedOp) := by
  refine ⟨?_, ?_, ?_, ?_, ?_, ?_, ?_⟩
  · intro hcm he
    fin_cases hcm <;>
      (simp only [read_op, hc, read_string]; rw [he]; exact rfl)
  · intro hcm hne
    fin_cases hcm <;>
      (simp only [read_op, hc, read_string]; rw [if_neg hne]; exact rfl)
  · intro hcm
    fin_cases hcm <;> (simp only [read_op, hc]; exact rfl)
  · intro hcI ht
    subst hcI
    fin_cases ht <;> (simp only [read_op, hc, read_index, hik]; exact rfl)
  · intro hcI ht
    subst hcI
    fin_cases ht <;> (simp only [read_op, hc, read_index, hik]; exact rfl)
  · intro hcm
    simp only [List.mem_cons, List.not_mem_nil, or_false, not_or] at hcm
    obtain ⟨n1, n2, n3, n4, n5, n6, n7, n8, n9, n10⟩ := hcm
    simp only [read_op, hc]
    simp only [n1, n2, n3, n4, n5, n6, n7, n8, n9, n10, if_false]
  · intro hcI ht
    subst hcI
    simp only [List.mem_cons, List.not_mem_nil, or_false, not_or] at ht
    obtain ⟨n1, n2, n3, n4, n5, n6, n7, n8, n9, n10, n11⟩ := ht
    simp only [read_op, hc, read_index, hik]
    simp only [n1, n2, n3, n4, n5, n6, n7, n8, n9, n10, n11, if_false]
    exact rfl

theorem read_dispatch_table_witness :
    read_op { strings := [], lists := [], sets := [], hashes := [] }
        ("trader-tester-123".toList) ("accounts:A-1".toList)
      = Except.ok (ReadPrim.lrange ("trader-tester-123:accounts:A-1".toList) 0 (-1), []) := by
  have h := (read_dispatch_table { strings := [], lists := [], sets := [], hashes := [] }
      ("trader-tester-123".toList) ("accounts:A-1".toList) ACCOUNTS
      ("accounts:A-1".toList) (by decide) (by decide)).2.2.1 (by decide)
  rw [h]
  exact rfl
